import Mathlib

/-
Verification development for the vulcan-check-sdk repository.

Shallow embedding of the components the claims refer to:
  * the target classifier (helpers package: reserved registries, isAllowed,
    verifyIPs, IsScannable, Target.IsHostname / IsDomainName, hasSOARecord),
  * the push state machine (internal/push: State.SetProgress and the
    SetStatus* transitions, Check.executeChecker error mapping),
  * the REST pusher (internal/push/rest/rest_pusher.go: UpdateState,
    goPusher, Shutdown, sendPushMsg, retry),
  * the process harness (process.go: ProcessCheck.Run / readAndProcess),
  * the local runner exit path (internal/local: Check.RunAndServe).

Go machine details are embedded as follows: IP addresses are Nat values
below 2^32 (IPv4) or 2^128 (IPv6); the CIDR mask-and-compare of
net.IPNet.Contains is division by a power of two; fallible Go functions
returning (T, error) become Except String T; Go channels, goroutines and
WaitGroups are embedded as explicit labelled transition systems with
reachability given by Relation.ReflTransGen.
-/

namespace VulcanSDK

/-! ### Reserved network registries (helpers, part_001 lines 25-71)

The source keeps the reserved ranges as CIDR strings and parses them once
at init into `NotScannableNetsIPV4` / `NotScannableNetsIPV6`.  Here every
range is already in parsed form: the (mask-aligned) base address as a Nat
together with the prefix length. -/

/-- A parsed CIDR network, the embedding of Go's `net.IPNet`: the base
address (already masked, as `net.ParseCIDR` returns it) and the prefix
length. -/
structure IPNet where
  base : Nat
  maskLen : Nat
  deriving Repr, DecidableEq

/-- Numeric value of a dotted-quad IPv4 literal `a.b.c.d`. -/
def ipv4 (a b c d : Nat) : Nat := ((a * 256 + b) * 256 + c) * 256 + d

/-- Numeric value of an IPv6 literal given by its eight hextets. -/
def ipv6 (h0 h1 h2 h3 h4 h5 h6 h7 : Nat) : Nat :=
  (((((((h0 * 65536 + h1) * 65536 + h2) * 65536 + h3) * 65536 + h4) * 65536
    + h5) * 65536 + h6) * 65536 + h7)

/-- The reserved IPv4 ranges, exactly the `reservedIPV4s` list of the
source (part_001 lines 25-42), in source order. -/
def reservedIPV4s : List IPNet :=
  [ ⟨ipv4 0 0 0 0, 8⟩
  , ⟨ipv4 10 0 0 0, 8⟩
  , ⟨ipv4 100 64 0 0, 10⟩
  , ⟨ipv4 127 0 0 0, 8⟩
  , ⟨ipv4 169 254 0 0, 16⟩
  , ⟨ipv4 172 16 0 0, 12⟩
  , ⟨ipv4 192 0 0 0, 24⟩
  , ⟨ipv4 192 0 2 0, 24⟩
  , ⟨ipv4 192 88 99 0, 24⟩
  , ⟨ipv4 192 168 0 0, 16⟩
  , ⟨ipv4 198 18 0 0, 15⟩
  , ⟨ipv4 198 51 100 0, 24⟩
  , ⟨ipv4 203 0 113 0, 24⟩
  , ⟨ipv4 224 0 0 0, 4⟩
  , ⟨ipv4 240 0 0 0, 4⟩
  , ⟨ipv4 255 255 255 255, 32⟩ ]

/-- The reserved IPv6 ranges, exactly the `reservedIPV6s` list of the
source (part_001 lines 43-54), in source order. -/
def reservedIPV6s : List IPNet :=
  [ ⟨ipv6 0 0 0 0 0 0 0 1, 128⟩
  , ⟨ipv6 0x64 0xff9b 0 0 0 0 0 0, 96⟩
  , ⟨ipv6 0x100 0 0 0 0 0 0 0, 64⟩
  , ⟨ipv6 0x2001 0 0 0 0 0 0 0, 32⟩
  , ⟨ipv6 0x2001 0x20 0 0 0 0 0 0, 28⟩
  , ⟨ipv6 0x2001 0xdb8 0 0 0 0 0 0, 32⟩
  , ⟨ipv6 0x2002 0 0 0 0 0 0 0, 16⟩
  , ⟨ipv6 0xfc00 0 0 0 0 0 0 0, 7⟩
  , ⟨ipv6 0xfe80 0 0 0 0 0 0 0, 10⟩
  , ⟨ipv6 0xff00 0 0 0 0 0 0 0, 8⟩ ]

/-- Embedding of `net.IPNet.Contains` for a `width`-bit address family:
the address masked to the net's prefix length equals the (already masked)
base.  Discarding the low `width - maskLen` bits is division by
`2 ^ (width - maskLen)`. -/
def netContains (width : Nat) (n : IPNet) (a : Nat) : Bool :=
  a / 2 ^ (width - n.maskLen) == n.base / 2 ^ (width - n.maskLen)

/-- An IP address literal.  A dotted IPv4 literal contains a `.` and a
plain IPv6 literal does not, so the constructor also records which branch
of the `strings.Contains(addr, ".")` test in `isAllowed` the literal
takes. -/
inductive IPAddr
  | v4 (a : Nat)
  | v6 (a : Nat)
  deriving Repr, DecidableEq

/-- Embedding of `isAllowed` (part_001 lines 253-277) on an IP address
literal: a bare IPv4 address gets `/32` appended and is tested against the
IPv4 registry, a bare IPv6 address gets `/128` and the IPv6 registry; the
result is true iff no reserved net contains the address.  For a valid
literal `net.ParseCIDR` cannot fail, so the error result of the source is
always nil here. -/
def isAllowed : IPAddr → Bool
  | .v4 a => !(reservedIPV4s.any fun n => netContains 32 n a)
  | .v6 a => !(reservedIPV6s.any fun n => netContains 128 n a)

/-- The IP-literal branch of `IsScannable` (part_001 lines 225-242): when
the target is an IP, the function returns `isAllowed` of the value,
discarding the (nil) error. -/
def IsScannableIP (a : IPAddr) : Bool := isAllowed a

/-- Membership of an address in the reserved registry of its own family:
some listed range of that family contains the address. -/
def inReservedRegistry : IPAddr → Prop
  | .v4 a => ∃ n ∈ reservedIPV4s, netContains 32 n a = true
  | .v6 a => ∃ n ∈ reservedIPV6s, netContains 128 n a = true

/-- The last (highest) address of a range in a `width`-bit family. -/
def lastAddr (width : Nat) (n : IPNet) : Nat :=
  n.base + 2 ^ (width - n.maskLen) - 1

/-! ### IsScannable on non-IP targets (part_001 lines 225-251)

For a target that is neither an IP nor a CIDR, `IsScannable` substitutes
the URL hostname when the target is a URL, calls `net.LookupHost` with the
error discarded (`addrs, _ := net.LookupHost(asset)`), and runs
`verifyIPs` over the addresses that came back.  The system resolver is the
environment of the function and is passed explicitly. -/

/-- Result of `net.LookupHost`: a list of resolved addresses or an
error.  When the call errors the source keeps the nil `addrs` slice. -/
inductive LookupHostResult
  | ok (addrs : List IPAddr)
  | err (msg : String)
  deriving Repr, DecidableEq

/-- The forward-resolution environment of `IsScannable`. -/
structure ResolveEnv where
  lookupHost : String → LookupHostResult

/-- A non-IP, non-CIDR target as it reaches the lookup part of
`IsScannable`: either a URL (carrying the hostname `u.Hostname()`
extracts) or a plain name. -/
inductive HostTarget
  | url (hostname : String)
  | plain (name : String)
  deriving Repr, DecidableEq

/-- The asset string `IsScannable` resolves: the URL's hostname when the
target is a URL, otherwise the target itself. -/
def HostTarget.effectiveHost : HostTarget → String
  | .url h => h
  | .plain n => n

/-- Embedding of `verifyIPs` (part_001 lines 244-251): false as soon as
one address is not allowed, true otherwise — in particular true on the
empty list. -/
def verifyIPs (addrs : List IPAddr) : Bool := addrs.all isAllowed

/-- The non-IP branch of `IsScannable` (part_001 lines 234-241): resolve
the effective host, discard the lookup error (on error the address slice
is nil), and verify every address that came back. -/
def IsScannableHost (env : ResolveEnv) (t : HostTarget) : Bool :=
  let addrs :=
    match env.lookupHost t.effectiveHost with
    | .ok l => l
    | .err _ => []
  verifyIPs addrs

/-! ### Target memoization (part_001 lines 73-167)

`Target` carries two memo fields.  Both `IsHostname` and `IsDomainName`
are declared on a VALUE receiver `(t Target)`: the method body mutates a
copy of the struct and the caller's variable is left untouched.  The
embedding keeps both halves explicit: `isHostnameBody` is the method body
acting on the receiver copy, and `isHostnameCall` is what a call does to
the caller's variable (the copy's mutations are dropped).  The third
component counts the DNS queries the call issued. -/

/-- Result of `net.LookupIP`: addresses, the distinguished "no such host"
error, or any other lookup error. -/
inductive LookupIPResult
  | ok (addrs : List IPAddr)
  | noSuchHost
  | otherErr (msg : String)
  deriving Repr, DecidableEq

/-- DNS environment of the Target methods: the `net.ParseIP` success test,
the `net.LookupIP` forward lookup, and the SOA lookup the free function
`IsDomainName` performs via `hasSOARecord`. -/
structure HostEnv where
  isIPLiteral : String → Bool
  lookupIP : String → LookupIPResult
  soaLookup : String → Except String Bool

/-- Embedding of the `Target` struct (part_001 lines 73-78). -/
structure GoTarget where
  value : String
  hostname : Option Bool := none
  domainName : Option Bool := none
  deriving Repr, DecidableEq

/-- Body of `Target.IsHostname` (part_001 lines 81-106) acting on the
receiver copy: cache hit returns without querying; an IP target caches
false on the copy; otherwise one forward lookup is issued, "no such host"
becomes false with no error and without a cache write, any other error is
returned, and a successful lookup caches whether at least one address came
back.  Returns (result, receiver copy after the body, queries issued). -/
def isHostnameBody (env : HostEnv) (t : GoTarget) :
    Except String Bool × GoTarget × Nat :=
  match t.hostname with
  | some b => (.ok b, t, 0)
  | none =>
    if env.isIPLiteral t.value then
      (.ok false, { t with hostname := some false }, 0)
    else
      match env.lookupIP t.value with
      | .noSuchHost => (.ok false, t, 1)
      | .otherErr m => (.error m, t, 1)
      | .ok addrs =>
        let is := decide (0 < addrs.length)
        (.ok is, { t with hostname := some is }, 1)

/-- Effect of a call `t.IsHostname()` on the caller: the receiver is a
value, so the copy the body updated is discarded and the caller's variable
is unchanged. -/
def isHostnameCall (env : HostEnv) (t : GoTarget) :
    Except String Bool × GoTarget × Nat :=
  ((isHostnameBody env t).1, t, (isHostnameBody env t).2.2)

/-- Body of `Target.IsDomainName` (part_001 lines 151-167) on the receiver
copy: cache hit returns without querying; an IP target returns false
without touching the cache; otherwise one SOA lookup is issued and a
successful result is cached on the copy. -/
def isDomainNameBody (env : HostEnv) (t : GoTarget) :
    Except String Bool × GoTarget × Nat :=
  match t.domainName with
  | some b => (.ok b, t, 0)
  | none =>
    if env.isIPLiteral t.value then
      (.ok false, t, 0)
    else
      match env.soaLookup t.value with
      | .error e => (.error e, t, 1)
      | .ok is => (.ok is, { t with domainName := some is }, 1)

/-- Effect of a call `t.IsDomainName()` on the caller: value receiver, so
the caller's variable is unchanged. -/
def isDomainNameCall (env : HostEnv) (t : GoTarget) :
    Except String Bool × GoTarget × Nat :=
  ((isDomainNameBody env t).1, t, (isDomainNameBody env t).2.2)

/-- Queries issued by two successive `IsHostname` calls on the same
variable. -/
def isHostnameTwice (env : HostEnv) (t : GoTarget) : Nat × Nat :=
  let r1 := isHostnameCall env t
  let r2 := isHostnameCall env r1.2.1
  (r1.2.2, r2.2.2)

/-- Queries issued by two successive `IsDomainName` calls on the same
variable. -/
def isDomainNameTwice (env : HostEnv) (t : GoTarget) : Nat × Nat :=
  let r1 := isDomainNameCall env t
  let r2 := isDomainNameCall env r1.2.1
  (r1.2.2, r2.2.2)

/-! ### hasSOARecord (part_001 lines 175-215)

The source loops over the configured resolvers, aborts on the first
transport error, breaks at the first response with a success rcode, and
otherwise keeps the last response.  After the loop, a nil response — which
with a non-failing exchange can only happen when the server list is
empty — yields `ErrFailedToGetDNSAnswer`; a recorded response is inspected
with `soaHeaderForName`.  The resolver configuration is passed as the
server list, and `dns.Client.Exchange` as a function. -/

/-- A DNS response: the rcode and the answer section, each answer being an
owner name with a record type. -/
structure DNSMsg where
  rcode : Nat
  answer : List (String × Nat)
  deriving Repr, DecidableEq

/-- `dns.RcodeSuccess`. -/
def rcodeSuccess : Nat := 0

/-- `dns.TypeSOA`. -/
def typeSOA : Nat := 6

/-- The distinguished error `ErrFailedToGetDNSAnswer`. -/
def errFailedToGetDNSAnswer : String := "failed to get a valid answer"

/-- Result of one `dns.Client.Exchange` call. -/
inductive ExchangeResult
  | ok (r : DNSMsg)
  | err (msg : String)
  deriving Repr, DecidableEq

/-- Embedding of `soaHeaderForName` (part_001 lines 207-215): some answer
record has the queried owner name and type SOA. -/
def soaHeaderForName (r : DNSMsg) (name : String) : Bool :=
  r.answer.any fun a => a.1 == name && a.2 == typeSOA

/-- The server loop of `hasSOARecord`: try each server in order, return
the first transport error, break at the first success-rcode response, and
keep the last response otherwise (the accumulator starts as the nil
response). -/
def exchangeLoop (ex : String → ExchangeResult) :
    List String → Option DNSMsg → Except String (Option DNSMsg)
  | [], last => .ok last
  | srv :: rest, _ =>
    match ex srv with
    | .err m => .error m
    | .ok r =>
      if r.rcode == rcodeSuccess then .ok (some r)
      else exchangeLoop ex rest (some r)

/-- Embedding of `hasSOARecord` (part_001 lines 175-205): query name is
the address with a trailing dot; a nil response after the loop is the
distinguished error, otherwise the recorded response is inspected for a
matching SOA answer. -/
def hasSOARecord (ex : String → ExchangeResult) (servers : List String)
    (address : String) : Except String Bool :=
  let qname := address ++ "."
  match exchangeLoop ex servers none with
  | .error m => .error m
  | .ok none => .error errFailedToGetDNSAnswer
  | .ok (some r) => .ok (soaHeaderForName r qname)

/-! ### Push state machine (part_006, agent/agent.go)

`agent.State` holds the status string, the progress and the report; every
`SetStatus*` / `SetProgress` transition mutates the state and hands the
updated snapshot to the pusher.  The embedding returns the new state
together with the list of snapshots pushed by the call.  The float32
progress is embedded as ℚ: the transitions only compare and assign
progress values, so any linearly ordered field carries them. -/

/-- `agent.StatusRunning`. -/
def statusRunning : String := "RUNNING"

/-- `agent.StatusFinished`. -/
def statusFinished : String := "FINISHED"

/-- `agent.StatusAborted`. -/
def statusAborted : String := "ABORTED"

/-- `agent.StatusFailed`. -/
def statusFailed : String := "FAILED"

/-- The report fields the transitions touch (vulcan-report's Report,
status and error). -/
structure CheckReport where
  status : String := ""
  error : String := ""
  deriving Repr, DecidableEq

/-- Embedding of `agent.State` (agent/agent.go lines 22-27). -/
structure AgentState where
  status : String := ""
  progress : ℚ := 0
  report : CheckReport := {}
  deriving Repr, DecidableEq

/-- Embedding of `State.SetProgress` (part_006 lines 45-53): only when the
status is RUNNING and the new progress is strictly greater than the
current one does the state change and a single snapshot get pushed;
otherwise nothing happens. -/
def setProgress (p : ℚ) (s : AgentState) : AgentState × List AgentState :=
  if s.status = statusRunning ∧ s.progress < p then
    let s2 := { s with progress := p }
    (s2, [s2])
  else
    (s, [])

/-- Embedding of `State.SetStatusRunning` (part_006 lines 55-61). -/
def setStatusRunning (s : AgentState) : AgentState × List AgentState :=
  let s2 := { s with
    status := statusRunning
    progress := 0
    report := { s.report with status := statusRunning } }
  (s2, [s2])

/-- Embedding of `State.SetStatusAborted` (part_006 lines 63-70). -/
def setStatusAborted (s : AgentState) : AgentState × List AgentState :=
  let s2 := { s with
    status := statusAborted
    progress := 1
    report := { s.report with status := statusAborted } }
  (s2, [s2])

/-- Embedding of `State.SetStatusFinished` (part_006 lines 72-80). -/
def setStatusFinished (s : AgentState) : AgentState × List AgentState :=
  let s2 := { s with
    status := statusFinished
    progress := 1
    report := { s.report with status := statusFinished } }
  (s2, [s2])

/-- Embedding of `State.SetStatusFailed` (part_006 lines 82-90): also
records the error string in the report. -/
def setStatusFailed (err : String) (s : AgentState) :
    AgentState × List AgentState :=
  let s2 := { s with
    status := statusFailed
    progress := 1
    report := { s.report with status := statusFailed, error := err } }
  (s2, [s2])

/-! ### executeChecker error mapping (part_007 lines 83-120) -/

/-- An error value the check body can return: the distinguished
`context.Canceled` value, or any other error with its message.  The Go
comparison `err == context.Canceled` is identity with the canonical value,
which the constructor split captures. -/
inductive GoError
  | contextCanceled
  | other (msg : String)
  deriving Repr, DecidableEq

/-- `Error()` of a `GoError`. -/
def GoError.message : GoError → String
  | .contextCanceled => "context canceled"
  | .other m => m

/-- The status-setting tail of `Check.executeChecker` (part_007 lines
107-117): a nil error finishes the check, `context.Canceled` aborts it,
and every other error fails it with the error recorded. -/
def finishFromResult (res : Option GoError) (s : AgentState) :
    AgentState × List AgentState :=
  match res with
  | some err =>
    if err = GoError.contextCanceled then setStatusAborted s
    else setStatusFailed err.message s
  | none => setStatusFinished s

/-! ### Local runner exit path (part_004 lines 32-57) -/

/-- The exit status `local.Check.RunAndServe` terminates the process with
(part_004 lines 53-56): `os.Exit(0)` when the check body returned an
error, `os.Exit(1)` otherwise. -/
def runAndServeExitCode : Option GoError → Nat
  | some _ => 0
  | none => 1

/-! ### sendPushMsg (rest_pusher.go lines 113-133)

`sendPushMsg` is pure control flow over the HTTP outcome; its effects are
embedded as the list of actions it performs.  `terminateProcess` is the
action a process-fatal escalation would perform; the source has no
statement performing it.  `retry` is the empty stub of the source (lines
131-133). -/

/-- The actions `sendPushMsg` can perform. -/
inductive PushAction
  | logError
  | logDebugSent
  | terminateProcess
  deriving Repr, DecidableEq

/-- Outcome of the PATCH call `r.Patch(id)`. -/
inductive HTTPResult
  | transportErr (msg : String)
  | response (status : Nat)
  deriving Repr, DecidableEq

/-- Embedding of `retry` (rest_pusher.go lines 131-133): the body is a
comment; it performs no action. -/
def retryActions : List PushAction := []

/-- Embedding of `sendPushMsg` (rest_pusher.go lines 113-129): a transport
error or a status other than 200 logs an error and runs the `retry` stub,
then returns; a 200 response logs the debug confirmation. -/
def sendPushMsgActions : HTTPResult → List PushAction
  | .transportErr _ => [PushAction.logError] ++ retryActions
  | .response code =>
    if code ≠ 200 then [PushAction.logError] ++ retryActions
    else [PushAction.logDebugSent]

/-- Whether a delivery attempt failed (transport error or non-200
status). -/
def deliveryFailed : HTTPResult → Bool
  | .transportErr _ => true
  | .response code => code ≠ 200

/-! ### Process harness (process.go lines 57-125)

`Run` starts `readAndProcess` as a goroutine over an unbuffered `done`
channel, reads stderr, blocks on `<-done`, waits for the process and
returns its state.  `readAndProcess` scans the output; for each chunk it
first checks the context, then hands the chunk to the processor, and stops
when the processor returns false; its deferred `done <- true` rendezvouses
with the main task.  The two tasks and the channel are embedded as a
labelled transition system; an execution is a `Relation.ReflTransGen`
chain of steps. -/

/-- One chunk of process output (a byte slice in the source). -/
abbrev Chunk := String

/-- Where the output-reading goroutine is: scanning with some chunks left,
executing the deferred `done <- true`, or exited. -/
inductive ReaderPhase
  | running (remaining : List Chunk)
  | sendingDone
  | exited
  deriving Repr, DecidableEq

/-- Where the main `Run` task is: before the `<-done` receive (starting
the process and draining stderr), blocked on `<-done`, in `cmd.Wait()`, or
returned with the process state. -/
inductive MainPhase
  | beforeReceive
  | awaitingDone
  | waitingProcess
  | returned
  deriving Repr, DecidableEq

/-- Joint state of one `ProcessCheck.Run` execution. -/
structure HarnessState where
  reader : ReaderPhase
  mainP : MainPhase
  ctxCancelled : Bool
  delivered : List Chunk
  deriving Repr, DecidableEq

/-- Initial state of a run over the given output chunks. -/
def initHarness (chunks : List Chunk) : HarnessState :=
  { reader := .running chunks
  , mainP := .beforeReceive
  , ctxCancelled := false
  , delivered := [] }

/-- Steps of the harness system, parameterized by the chunk processor.
Reader steps follow the scan loop of `readAndProcess`: per chunk, the
context check comes first, then the processor call, and a false return
exits the loop after that chunk; end of input exits it too.  The
`doneRendezvous` step is the synchronization of the deferred
`done <- true` with `<-done` in `Run`; only after it can `Run` reach
`cmd.Wait()` and return. -/
inductive HarnessStep (proc : Chunk → Bool) :
    HarnessState → HarnessState → Prop
  | cancelCtx (s : HarnessState) (h : s.ctxCancelled = false) :
      HarnessStep proc s { s with ctxCancelled := true }
  | deliver (s : HarnessState) (c : Chunk) (rest : List Chunk)
      (hr : s.reader = .running (c :: rest)) (hc : s.ctxCancelled = false)
      (hp : proc c = true) :
      HarnessStep proc s
        { s with reader := .running rest, delivered := s.delivered ++ [c] }
  | stopOnFalse (s : HarnessState) (c : Chunk) (rest : List Chunk)
      (hr : s.reader = .running (c :: rest)) (hc : s.ctxCancelled = false)
      (hp : proc c = false) :
      HarnessStep proc s
        { s with reader := .sendingDone, delivered := s.delivered ++ [c] }
  | stopOnCancel (s : HarnessState) (c : Chunk) (rest : List Chunk)
      (hr : s.reader = .running (c :: rest)) (hc : s.ctxCancelled = true) :
      HarnessStep proc s { s with reader := .sendingDone }
  | stopOnEOF (s : HarnessState) (hr : s.reader = .running []) :
      HarnessStep proc s { s with reader := .sendingDone }
  | stderrDrained (s : HarnessState) (hm : s.mainP = .beforeReceive) :
      HarnessStep proc s { s with mainP := .awaitingDone }
  | doneRendezvous (s : HarnessState) (hr : s.reader = .sendingDone)
      (hm : s.mainP = .awaitingDone) :
      HarnessStep proc s { s with reader := .exited, mainP := .waitingProcess }
  | processReturn (s : HarnessState) (hm : s.mainP = .waitingProcess) :
      HarnessStep proc s { s with mainP := .returned }

/-- Invariant of the harness system: while the reader is still scanning
every delivered chunk was accepted by the processor; in any state every
delivered chunk but the last was accepted (so a rejected chunk is always
the last one delivered); and once the main task is at or past `cmd.Wait()`
the reader has exited. -/
def harnessInv (proc : Chunk → Bool) (s : HarnessState) : Prop :=
  ((∃ rest, s.reader = ReaderPhase.running rest) →
    ∀ c ∈ s.delivered, proc c = true) ∧
  (∀ c ∈ s.delivered.dropLast, proc c = true) ∧
  ((s.mainP = .waitingProcess ∨ s.mainP = .returned) →
    s.reader = .exited)

/-! ### REST pusher queue (rest_pusher.go lines 45-111)

`UpdateState` does a `select` with a `default` branch: a non-blocking send
into the buffered channel, and when the buffer is full a backpressure
warning followed by a blocking send.  `goPusher` ranges over the channel
and delivers each message in order; the range exits once the channel is
closed and drained, after which the WaitGroup is released.  `Shutdown`
closes the channel and blocks on the WaitGroup.  The embedding is a
transition system over the producer's remaining messages, the channel
buffer, and the sender. -/

/-- A queued push message. -/
abbrev PushMsg := String

/-- `defaultPushMsgBufferLen` (rest_pusher.go line 15). -/
def defaultPushMsgBufferLen : Nat := 10

/-- The channel capacity `NewRestPusher` uses (rest_pusher.go lines
81-83): the configured length, or the default when the configured value is
zero. -/
def effectiveBufferLen (configured : Nat) : Nat :=
  if configured == 0 then defaultPushMsgBufferLen else configured

/-- Joint state of one pusher: the messages the producer has not yet
enqueued (in submission order), the message the producer is blocked trying
to insert, the number of backpressure warnings logged, the channel buffer,
whether the channel is closed, the messages delivered to the agent, and
the sender/shutdown progress flags. -/
structure PusherState where
  pending : List PushMsg
  blocked : Option PushMsg
  warned : Nat
  queue : List PushMsg
  closedCh : Bool
  delivered : List PushMsg
  senderExited : Bool
  shutdownCalled : Bool
  shutdownReturned : Bool
  deriving Repr, DecidableEq

/-- Initial pusher state for a submission sequence. -/
def initPusher (msgs : List PushMsg) : PusherState :=
  { pending := msgs
  , blocked := none
  , warned := 0
  , queue := []
  , closedCh := false
  , delivered := []
  , senderExited := false
  , shutdownCalled := false
  , shutdownReturned := false }

/-- Steps of the pusher system with channel capacity `cap`.  `UpdateState`
is `enqueueFast` when the buffer has room (the `select` send succeeds
immediately) and `enqueueBlock`/`enqueueUnblock` when it is full (the
`default` branch logs the backpressure warning and the producer blocks on
the channel send until the sender makes room).  `send` is one iteration of
the `goPusher` range loop; `senderExit` is the range loop ending on the
closed, drained channel and releasing the WaitGroup.  `shutdownClose` is
`close(p.msgsToSend)` — per the source's warning, `Shutdown` is called
only after all `UpdateState` calls are done — and `shutdownReturn` is
`p.finished.Wait()` unblocking. -/
inductive PusherStep (cap : Nat) : PusherState → PusherState → Prop
  | enqueueFast (s : PusherState) (m : PushMsg) (rest : List PushMsg)
      (hp : s.pending = m :: rest) (hb : s.blocked = none)
      (hs : s.shutdownCalled = false) (hq : s.queue.length < cap) :
      PusherStep cap s { s with pending := rest, queue := s.queue ++ [m] }
  | enqueueBlock (s : PusherState) (m : PushMsg) (rest : List PushMsg)
      (hp : s.pending = m :: rest) (hb : s.blocked = none)
      (hs : s.shutdownCalled = false) (hq : ¬ s.queue.length < cap) :
      PusherStep cap s
        { s with pending := rest, blocked := some m, warned := s.warned + 1 }
  | enqueueUnblock (s : PusherState) (m : PushMsg)
      (hb : s.blocked = some m) (hq : s.queue.length < cap) :
      PusherStep cap s { s with blocked := none, queue := s.queue ++ [m] }
  | send (s : PusherState) (m : PushMsg) (rest : List PushMsg)
      (hq : s.queue = m :: rest) (he : s.senderExited = false) :
      PusherStep cap s
        { s with queue := rest, delivered := s.delivered ++ [m] }
  | senderExit (s : PusherState) (hq : s.queue = [])
      (hc : s.closedCh = true) (he : s.senderExited = false) :
      PusherStep cap s { s with senderExited := true }
  | shutdownClose (s : PusherState) (hp : s.pending = [])
      (hb : s.blocked = none) (hs : s.shutdownCalled = false) :
      PusherStep cap s { s with shutdownCalled := true, closedCh := true }
  | shutdownReturn (s : PusherState) (hs : s.shutdownCalled = true)
      (he : s.senderExited = true) (hr : s.shutdownReturned = false) :
      PusherStep cap s { s with shutdownReturned := true }

/-- Invariant of the pusher system for submission sequence `msgs`:
delivery, buffer, blocked slot and pending messages partition the
submission sequence in order (no message is dropped, duplicated or
reordered); the channel only closes after all submissions are in and as
part of shutdown; the sender only exits on the closed, drained channel;
and shutdown only returns after the sender exited. -/
def pusherInv (msgs : List PushMsg) (s : PusherState) : Prop :=
  (s.delivered ++ s.queue ++ s.blocked.toList ++ s.pending = msgs) ∧
  (s.closedCh = true →
    s.shutdownCalled = true ∧ s.pending = [] ∧ s.blocked = none) ∧
  (s.senderExited = true → s.queue = [] ∧ s.closedCh = true) ∧
  (s.shutdownReturned = true → s.senderExited = true)

/-! ### Invariant lemmas for the harness system -/

theorem harnessInv_init (proc : Chunk → Bool) (chunks : List Chunk) :
    harnessInv proc (initHarness chunks) := by
  refine ⟨?_, ?_, ?_⟩ <;> simp [harnessInv, initHarness]

theorem harnessInv_step {proc : Chunk → Bool} {s s2 : HarnessState}
    (hstep : HarnessStep proc s s2) (hinv : harnessInv proc s) :
    harnessInv proc s2 := by
  obtain ⟨h1, h2, h3⟩ := hinv
  cases hstep with
  | cancelCtx h =>
    exact ⟨h1, h2, h3⟩
  | deliver c rest hr hc hp =>
    refine ⟨?_, ?_, ?_⟩
    · intro _ x hx
      rcases List.mem_append.mp hx with hx | hx
      · exact h1 ⟨_, hr⟩ x hx
      · rw [List.mem_singleton.mp hx]
        exact hp
    · intro x hx
      rw [List.dropLast_concat] at hx
      exact h1 ⟨_, hr⟩ x hx
    · intro hm
      have hex := h3 hm
      rw [hr] at hex
      exact ReaderPhase.noConfusion hex
  | stopOnFalse c rest hr hc hp =>
    refine ⟨?_, ?_, ?_⟩
    · intro hrun
      obtain ⟨r2, hrun⟩ := hrun
      exact ReaderPhase.noConfusion hrun
    · intro x hx
      rw [List.dropLast_concat] at hx
      exact h1 ⟨_, hr⟩ x hx
    · intro hm
      have hex := h3 hm
      rw [hr] at hex
      exact ReaderPhase.noConfusion hex
  | stopOnCancel c rest hr hc =>
    refine ⟨?_, h2, ?_⟩
    · intro hrun
      obtain ⟨r2, hrun⟩ := hrun
      exact ReaderPhase.noConfusion hrun
    · intro hm
      have hex := h3 hm
      rw [hr] at hex
      exact ReaderPhase.noConfusion hex
  | stopOnEOF hr =>
    refine ⟨?_, h2, ?_⟩
    · intro hrun
      obtain ⟨r2, hrun⟩ := hrun
      exact ReaderPhase.noConfusion hrun
    · intro hm
      have hex := h3 hm
      rw [hr] at hex
      exact ReaderPhase.noConfusion hex
  | stderrDrained hm =>
    refine ⟨h1, h2, ?_⟩
    · intro hm2
      rcases hm2 with hm2 | hm2 <;> exact MainPhase.noConfusion hm2
  | doneRendezvous hr hm =>
    refine ⟨?_, h2, ?_⟩
    · intro hrun
      obtain ⟨r2, hrun⟩ := hrun
      exact ReaderPhase.noConfusion hrun
    · intro _
      rfl
  | processReturn hm =>
    exact ⟨h1, h2, fun _ => h3 (Or.inl hm)⟩

theorem harnessInv_reach {proc : Chunk → Bool} {chunks : List Chunk}
    {s : HarnessState}
    (h : Relation.ReflTransGen (HarnessStep proc) (initHarness chunks) s) :
    harnessInv proc s := by
  induction h with
  | refl => exact harnessInv_init proc chunks
  | tail hab hbc ih => exact harnessInv_step hbc ih

/-! ### Invariant lemmas for the pusher system -/

theorem pusherInv_init (msgs : List PushMsg) :
    pusherInv msgs (initPusher msgs) := by
  refine ⟨?_, ?_, ?_, ?_⟩ <;> simp [pusherInv, initPusher]

theorem pusherInv_step {cap : Nat} {msgs : List PushMsg}
    {s s2 : PusherState} (hstep : PusherStep cap s s2)
    (hinv : pusherInv msgs s) : pusherInv msgs s2 := by
  obtain ⟨h1, h2, h3, h4⟩ := hinv
  cases hstep with
  | enqueueFast m rest hp hb hs hq =>
    refine ⟨?_, ?_, ?_, h4⟩
    · rw [← h1, hp, hb]
      simp
    · intro hc
      rw [(h2 hc).1] at hs
      exact Bool.noConfusion hs
    · intro hse
      rw [(h2 (h3 hse).2).1] at hs
      exact Bool.noConfusion hs
  | enqueueBlock m rest hp hb hs hq =>
    refine ⟨?_, ?_, ?_, h4⟩
    · rw [← h1, hp, hb]
      simp
    · intro hc
      rw [(h2 hc).1] at hs
      exact Bool.noConfusion hs
    · intro hse
      rw [(h2 (h3 hse).2).1] at hs
      exact Bool.noConfusion hs
  | enqueueUnblock m hb hq =>
    refine ⟨?_, ?_, ?_, h4⟩
    · rw [← h1, hb]
      simp
    · intro hc
      rw [(h2 hc).2.2] at hb
      exact Option.noConfusion hb
    · intro hse
      rw [(h2 (h3 hse).2).2.2] at hb
      exact Option.noConfusion hb
  | send m rest hq he =>
    refine ⟨?_, h2, ?_, h4⟩
    · rw [← h1, hq]
      simp
    · intro hse
      rw [hse] at he
      exact Bool.noConfusion he
  | senderExit hq hc he =>
    exact ⟨h1, h2, fun _ => ⟨hq, hc⟩, fun _ => rfl⟩
  | shutdownClose hp hb hs =>
    refine ⟨h1, fun _ => ⟨rfl, hp, hb⟩, ?_, h4⟩
    · intro hse
      exact ⟨(h3 hse).1, rfl⟩
  | shutdownReturn hs he hr =>
    exact ⟨h1, h2, h3, fun _ => he⟩

theorem pusherInv_reach {cap : Nat} {msgs : List PushMsg}
    {s : PusherState}
    (h : Relation.ReflTransGen (PusherStep cap) (initPusher msgs) s) :
    pusherInv msgs s := by
  induction h with
  | refl => exact pusherInv_init msgs
  | tail hab hbc ih => exact pusherInv_step hbc ih

/-- A non-enqueue step never consumes a pending message: the only steps
with `s2.pending` a strict suffix of `s.pending` are the two enqueue
rules.  Stated for use in the backpressure characterization. -/
theorem pusherStep_pending_cases {cap : Nat} {s s2 : PusherState}
    (hstep : PusherStep cap s s2) (m : PushMsg) (rest : List PushMsg)
    (hp : s.pending = m :: rest) (hp2 : s2.pending = rest) :
    (s.queue.length < cap ∧ s2.queue = s.queue ++ [m] ∧
      s2.warned = s.warned ∧ s2.blocked = s.blocked) ∨
    (¬ s.queue.length < cap ∧ s2.blocked = some m ∧
      s2.warned = s.warned + 1 ∧ s2.queue = s.queue) := by
  cases hstep with
  | enqueueFast m2 rest2 hp3 hb hs hq =>
    rw [hp] at hp3
    obtain ⟨hm, hr⟩ := List.cons.inj hp3
    exact Or.inl ⟨hq, by rw [← hm], rfl, rfl⟩
  | enqueueBlock m2 rest2 hp3 hb hs hq =>
    rw [hp] at hp3
    obtain ⟨hm, hr⟩ := List.cons.inj hp3
    exact Or.inr ⟨hq, by rw [← hm], rfl, rfl⟩
  | enqueueUnblock m2 hb hq =>
    rw [hp] at hp2
    exact absurd hp2 (List.cons_ne_self m rest)
  | send m2 rest2 hq he =>
    rw [hp] at hp2
    exact absurd hp2 (List.cons_ne_self m rest)
  | senderExit hq hc he =>
    rw [hp] at hp2
    exact absurd hp2 (List.cons_ne_self m rest)
  | shutdownClose hp3 hb hs =>
    rw [hp] at hp3
    exact List.noConfusion hp3
  | shutdownReturn hs he hr =>
    rw [hp] at hp2
    exact absurd hp2 (List.cons_ne_self m rest)

/-! ### Helper lemma for C8: exhausting the resolver loop -/

theorem exchangeLoop_cons (ex : String → ExchangeResult) (srv : String)
    (rest : List String) (acc : Option DNSMsg) :
    exchangeLoop ex (srv :: rest) acc =
      match ex srv with
      | .err m => .error m
      | .ok r =>
        if r.rcode == rcodeSuccess then .ok (some r)
        else exchangeLoop ex rest (some r) := rfl

theorem exchangeLoop_cons_notOk (ex : String → ExchangeResult)
    (srv : String) (rest : List String) (acc : Option DNSMsg) (m : DNSMsg)
    (hex : ex srv = .ok m) (hrc : (m.rcode == rcodeSuccess) = false) :
    exchangeLoop ex (srv :: rest) acc = exchangeLoop ex rest (some m) := by
  rw [exchangeLoop_cons, hex]
  simp [hrc]

theorem exchangeLoop_exhausted (ex : String → ExchangeResult) :
    ∀ servers : List String,
      (∀ s ∈ servers,
        ∃ m, ex s = .ok m ∧ (m.rcode == rcodeSuccess) = false) →
      ∀ acc : Option DNSMsg, servers ≠ [] →
        ∃ m, exchangeLoop ex servers acc = .ok (some m) := by
  intro servers
  induction servers with
  | nil =>
    intro _ acc h
    exact absurd rfl h
  | cons srv rest ih =>
    intro hall acc _
    obtain ⟨m, hex, hrc⟩ := hall srv (List.mem_cons_self srv rest)
    rw [exchangeLoop_cons_notOk ex srv rest acc m hex hrc]
    rcases rest with _ | ⟨r2, rest2⟩
    · exact ⟨m, rfl⟩
    · exact ih (fun s hs => hall s (List.mem_cons_of_mem srv hs)) (some m)
        (by simp)

/-! ### Claim theorems -/

/-- C1, counterexample: when forward resolution of a non-IP, non-CIDR
target fails, `IsScannable` does NOT return false: with the lookup
returning an error, the address slice is empty and `verifyIPs` of the
empty slice is true, so the target is treated as scannable — matching the
repository's own `HostnameNotResolve` test, which wants true. -/
def cexResolveEnv : ResolveEnv :=
  { lookupHost := fun _ => .err "no such host" }

/-- C1 counterexample: the claim "resolution failure implies IsScannable
returns false" is false at the concrete target `test.example.com` under a
resolver that fails every lookup. -/
theorem C1_counterexample :
    ¬ (IsScannableHost cexResolveEnv
        (HostTarget.plain "test.example.com") = false) := by
  decide

/-- C1 (amended): for every non-IP, non-CIDR target (after URL-hostname
substitution), when forward resolution fails the error is discarded and
`IsScannable` returns true — it treats the target as scannable and
surfaces no error to the caller. -/
theorem C1_resolution_failure_scannable (env : ResolveEnv)
    (t : HostTarget) (msg : String)
    (h : env.lookupHost t.effectiveHost = .err msg) :
    IsScannableHost env t = true := by
  simp only [IsScannableHost, h]
  rfl

/-- C1 witness: the amended claim evaluated at a concrete failing
resolver. -/
theorem C1_resolution_failure_scannable_witness :
    cexResolveEnv.lookupHost
      (HostTarget.plain "a.example.com").effectiveHost =
      LookupHostResult.err "no such host" ∧
    IsScannableHost cexResolveEnv (HostTarget.plain "a.example.com") = true :=
  ⟨rfl, C1_resolution_failure_scannable cexResolveEnv
    (HostTarget.plain "a.example.com") "no such host" rfl⟩

/-- C2 counterexample: a failed delivery (HTTP 500) is logged but the
function performs no process-terminating action — the claim that every
failed delivery is escalated to a process-fatal condition is false at this
input. -/
theorem C2_counterexample :
    deliveryFailed (HTTPResult.response 500) = true ∧
    PushAction.logError ∈ sendPushMsgActions (HTTPResult.response 500) ∧
    PushAction.terminateProcess ∉
      sendPushMsgActions (HTTPResult.response 500) := by
  decide

/-- C2 (amended): every failed delivery attempt (transport error or
non-200 status) is logged as an error and then abandoned: `retry` is an
empty stub, the message is not re-sent, and no process-fatal escalation
happens — the pusher goroutine goes on to the next message. -/
theorem C2_failure_logged_not_fatal (r : HTTPResult)
    (h : deliveryFailed r = true) :
    sendPushMsgActions r = [PushAction.logError] ++ retryActions ∧
    retryActions = [] ∧
    PushAction.terminateProcess ∉ sendPushMsgActions r := by
  cases r with
  | transportErr m =>
    exact ⟨rfl, rfl, by simp [sendPushMsgActions, retryActions]⟩
  | response code =>
    have hc : ¬ code = 200 := by
      intro hEq
      subst hEq
      simp [deliveryFailed] at h
    refine ⟨?_, rfl, ?_⟩
    · simp [sendPushMsgActions, hc]
    · simp [sendPushMsgActions, retryActions, hc]

/-- C2 witness: the amended claim evaluated at a concrete transport
error. -/
theorem C2_failure_logged_not_fatal_witness :
    deliveryFailed (HTTPResult.transportErr "connection refused") = true ∧
    sendPushMsgActions (HTTPResult.transportErr "connection refused") =
      [PushAction.logError] ++ retryActions ∧
    PushAction.terminateProcess ∉
      sendPushMsgActions (HTTPResult.transportErr "connection refused") :=
  ⟨rfl,
   (C2_failure_logged_not_fatal (HTTPResult.transportErr "connection refused")
      rfl).1,
   (C2_failure_logged_not_fatal (HTTPResult.transportErr "connection refused")
      rfl).2.2⟩

/-- Environment for the C3 failing input: `example.com` is not an IP
literal and resolves to one address; the SOA lookup succeeds. -/
def cexHostEnv : HostEnv :=
  { isIPLiteral := fun _ => false
  , lookupIP := fun _ => .ok [IPAddr.v4 (ipv4 93 184 216 34)]
  , soaLookup := fun _ => .ok true }

/-- C3: the memoization the claim (and the spec) describe is lost.  The
method body does compute and store the cache on its receiver — conjunct
two — but the receiver is a value, so the caller's Target never changes
and the second call issues another DNS query: both `IsHostname` and
`IsDomainName`, called twice on the same variable, query once per call
(conjuncts three and four give the per-call query counts (1, 1), where the
claim requires the second count to be 0). -/
theorem C3_memoization_lost :
    (isHostnameBody cexHostEnv { value := "example.com" }).1 = .ok true ∧
    (isHostnameBody cexHostEnv
      { value := "example.com" }).2.1.hostname = some true ∧
    isHostnameTwice cexHostEnv { value := "example.com" } = (1, 1) ∧
    isDomainNameTwice cexHostEnv { value := "example.com" } = (1, 1) :=
  ⟨rfl, rfl, rfl, rfl⟩

/-- C4: `SetProgress p` outside RUNNING status or with `p` not greater
than the current progress leaves the state unchanged and pushes nothing;
in RUNNING status with `p` greater it sets the progress and pushes exactly
one snapshot, the updated state. -/
theorem C4_setProgress_guard (s : AgentState) (p : ℚ) :
    (¬ (s.status = statusRunning ∧ s.progress < p) →
      setProgress p s = (s, [])) ∧
    (s.status = statusRunning → s.progress < p →
      setProgress p s =
        ({ s with progress := p }, [{ s with progress := p }])) := by
  constructor
  · intro h
    unfold setProgress
    rw [if_neg h]
  · intro h1 h2
    unfold setProgress
    rw [if_pos ⟨h1, h2⟩]

/-- A running state at progress one half, for the C4 witness. -/
def runningHalf : AgentState := { status := statusRunning, progress := 1/2 }

/-- C4 witness: `progress(0.3)` after `progress(0.5)` while running is a
no-op, and `progress(0.7)` advances the progress with one push. -/
theorem C4_setProgress_guard_witness :
    setProgress (3/10) runningHalf = (runningHalf, []) ∧
    setProgress (7/10) runningHalf =
      ({ runningHalf with progress := 7/10 },
        [{ runningHalf with progress := 7/10 }]) := by
  constructor
  · exact (C4_setProgress_guard runningHalf (3/10)).1
      (fun h => absurd h.2 (by norm_num [runningHalf]))
  · exact (C4_setProgress_guard runningHalf (7/10)).2 rfl
      (by norm_num [runningHalf])

/-- C5: the lifecycle's error mapping drives the abort transition (status
ABORTED, progress 1) exactly when the check body's error is the
distinguished `context.Canceled` value, and drives the fail transition
(status FAILED, progress 1, error recorded) for every other non-nil
error. -/
theorem C5_error_mapping (res : Option GoError) (s : AgentState) :
    ((finishFromResult res s).1.status = statusAborted ↔
      res = some GoError.contextCanceled) ∧
    (res = some GoError.contextCanceled →
      (finishFromResult res s).1.progress = 1) ∧
    (∀ m, res = some (GoError.other m) →
      (finishFromResult res s).1.status = statusFailed ∧
      (finishFromResult res s).1.progress = 1 ∧
      (finishFromResult res s).1.report.error = m) := by
  rcases res with _ | e
  · refine ⟨?_, ?_, ?_⟩ <;>
      simp [finishFromResult, setStatusFinished, statusFinished,
        statusAborted]
  · cases e with
    | contextCanceled =>
      refine ⟨?_, ?_, ?_⟩ <;>
        simp [finishFromResult, setStatusAborted, statusAborted]
    | other m =>
      refine ⟨?_, ?_, ?_⟩ <;>
        simp [finishFromResult, setStatusFailed, GoError.message,
          statusFailed, statusAborted]

/-- C5 witness: the mapping evaluated at the distinguished cancellation
error and at an ordinary error. -/
theorem C5_error_mapping_witness :
    (finishFromResult (some GoError.contextCanceled) {}).1.status =
      statusAborted ∧
    (finishFromResult (some (GoError.other "boom")) {}).1.status =
      statusFailed ∧
    (finishFromResult (some (GoError.other "boom")) {}).1.report.error =
      "boom" :=
  ⟨(C5_error_mapping (some GoError.contextCanceled) {}).1.mpr rfl,
   ((C5_error_mapping (some (GoError.other "boom")) {}).2.2 "boom" rfl).1,
   ((C5_error_mapping (some (GoError.other "boom")) {}).2.2 "boom"
      rfl).2.2⟩

/-- C6: in every reachable state of the harness system, every chunk
delivered to the processor except possibly the last was accepted (so once
the processor returns false for a chunk, no later chunk is ever
delivered, whatever further output the process produces), and whenever the
main task has returned the process's final status the output-reading task
has exited. -/
theorem C6_reader_stop_and_join (proc : Chunk → Bool)
    (chunks : List Chunk) (s : HarnessState)
    (h : Relation.ReflTransGen (HarnessStep proc) (initHarness chunks) s) :
    (∀ c ∈ s.delivered.dropLast, proc c = true) ∧
    (s.mainP = .returned → s.reader = .exited) := by
  obtain ⟨h1, h2, h3⟩ := harnessInv_reach h
  exact ⟨h2, fun hm => h3 (Or.inr hm)⟩

/-- The harness state reached after the processor rejects the only chunk,
for the C6 witness. -/
def harnessStopState : HarnessState :=
  { reader := .sendingDone
  , mainP := .beforeReceive
  , ctxCancelled := false
  , delivered := ["stop"] }

/-- C6 witness: the theorem applied to the concrete execution that
delivers one chunk which the processor rejects. -/
theorem C6_reader_stop_and_join_witness :
    (∀ c ∈ harnessStopState.delivered.dropLast,
      (fun _ => false : Chunk → Bool) c = true) ∧
    (harnessStopState.mainP = .returned →
      harnessStopState.reader = .exited) :=
  C6_reader_stop_and_join (fun _ => false) ["stop"] harnessStopState
    (Relation.ReflTransGen.tail Relation.ReflTransGen.refl
      (HarnessStep.stopOnFalse (initHarness ["stop"]) "stop" [] rfl rfl rfl))

/-- C7: for every IP literal, `IsScannable` is false exactly when some
listed reserved range of the literal's family (IPv4 for dotted literals,
IPv6 otherwise) contains the address under network-contains-address — in
particular it is false inside and true outside the listed ranges — and
each listed range contains its own first and last address, so both
boundary addresses of every range are unscannable. -/
theorem C7_reserved_ip_gate (addr : IPAddr) :
    (IsScannableIP addr = false ↔ inReservedRegistry addr) ∧
    (∀ n ∈ reservedIPV4s,
      netContains 32 n n.base = true ∧
      netContains 32 n (lastAddr 32 n) = true) ∧
    (∀ n ∈ reservedIPV6s,
      netContains 128 n n.base = true ∧
      netContains 128 n (lastAddr 128 n) = true) := by
  refine ⟨?_, by decide, by decide⟩
  cases addr with
  | v4 a =>
    simp [IsScannableIP, isAllowed, inReservedRegistry, List.any_eq_true]
  | v6 a =>
    simp [IsScannableIP, isAllowed, inReservedRegistry, List.any_eq_true]

/-- C7 witness: the first address of 10.0.0.0/8 is not scannable, via the
theorem's iff; the boundary conjuncts instantiated at that range. -/
theorem C7_reserved_ip_gate_witness :
    IsScannableIP (IPAddr.v4 (ipv4 10 0 0 0)) = false ∧
    netContains 32 ⟨ipv4 10 0 0 0, 8⟩ (lastAddr 32 ⟨ipv4 10 0 0 0, 8⟩) =
      true :=
  ⟨(C7_reserved_ip_gate (IPAddr.v4 (ipv4 10 0 0 0))).1.mpr
      ⟨⟨ipv4 10 0 0 0, 8⟩, by decide, by decide⟩,
   ((C7_reserved_ip_gate (IPAddr.v4 0)).2.1 ⟨ipv4 10 0 0 0, 8⟩
      (by decide)).2⟩

/-- Exchange function for the C8 counterexample: every resolver responds
(no transport error) with rcode 2 (SERVFAIL) and an empty answer
section. -/
def cexExchange : String → ExchangeResult :=
  fun _ => .ok { rcode := 2, answer := [] }

/-- C8 counterexample: with one configured resolver answering SERVFAIL,
every resolver is exhausted without a successful response, yet
`hasSOARecord` returns false with NO error — not the distinguished
"no valid answer" error the claim requires. -/
theorem C8_counterexample :
    hasSOARecord cexExchange ["192.0.2.53"] "example.com" = .ok false :=
  rfl

/-- C8 (amended): the distinguished "no valid answer" error is returned
exactly when the loop records no response at all, which (absent transport
errors) means the configured resolver list is empty; when at least one
resolver is configured and every resolver responds without transport error
but with a non-success rcode, the loop exhausts the list and returns the
SOA-presence of the LAST response with no error — false with no error
whenever that response lacks a matching SOA answer. -/
theorem C8_no_valid_answer_condition (ex : String → ExchangeResult)
    (servers : List String) (address : String)
    (hall : ∀ s ∈ servers,
      ∃ m, ex s = .ok m ∧ (m.rcode == rcodeSuccess) = false) :
    (servers = [] →
      hasSOARecord ex servers address = .error errFailedToGetDNSAnswer) ∧
    (servers ≠ [] →
      ∃ m, hasSOARecord ex servers address =
        .ok (soaHeaderForName m (address ++ "."))) := by
  constructor
  · intro h
    subst h
    rfl
  · intro h
    obtain ⟨m, hm⟩ := exchangeLoop_exhausted ex servers hall none h
    exact ⟨m, by simp [hasSOARecord, hm]⟩

/-- C8 witness: the amended claim at the empty resolver list and at one
SERVFAIL-answering resolver. -/
theorem C8_no_valid_answer_condition_witness :
    hasSOARecord cexExchange [] "example.com" =
      .error errFailedToGetDNSAnswer ∧
    ∃ m, hasSOARecord cexExchange ["192.0.2.53"] "example.com" =
      .ok (soaHeaderForName m ("example.com" ++ ".")) :=
  ⟨(C8_no_valid_answer_condition cexExchange [] "example.com"
      (by simp)).1 rfl,
   (C8_no_valid_answer_condition cexExchange ["192.0.2.53"] "example.com"
      (fun s _ => ⟨{ rcode := 2, answer := [] }, rfl, rfl⟩)).2 (by simp)⟩

/-- C9: in every reachable state of the pusher system, the delivered
messages followed by the buffered, blocked and still-pending ones are
exactly the submission sequence in order (FIFO end-to-end, no drop); once
`Shutdown` has returned the sender has exited and every submitted message
was delivered; every enqueue step inserts without blocking when the buffer
has room and otherwise logs one backpressure warning and blocks the
producer on the insert; and the default buffer capacity is 10. -/
theorem C9_pusher_queue (msgs : List PushMsg) (cap : Nat)
    (s : PusherState)
    (h : Relation.ReflTransGen (PusherStep cap) (initPusher msgs) s) :
    (s.delivered ++ s.queue ++ s.blocked.toList ++ s.pending = msgs) ∧
    (s.shutdownReturned = true →
      s.senderExited = true ∧ s.delivered = msgs) ∧
    (∀ s2, PusherStep cap s s2 → ∀ m rest, s.pending = m :: rest →
      s2.pending = rest →
      ((s.queue.length < cap ∧ s2.queue = s.queue ++ [m] ∧
        s2.warned = s.warned) ∨
       (¬ s.queue.length < cap ∧ s2.blocked = some m ∧
        s2.warned = s.warned + 1))) ∧
    effectiveBufferLen 0 = 10 := by
  obtain ⟨h1, h2, h3, h4⟩ := pusherInv_reach h
  refine ⟨h1, ?_, ?_, rfl⟩
  · intro hr
    have hse := h4 hr
    obtain ⟨hq, hc⟩ := h3 hse
    obtain ⟨hsc, hpe, hbl⟩ := h2 hc
    refine ⟨hse, ?_⟩
    rw [← h1, hq, hpe, hbl]
    simp
  · intro s2 hstep m rest hp hp2
    rcases pusherStep_pending_cases hstep m rest hp hp2 with
      ⟨ha, hb2, hc2, _⟩ | ⟨ha, hb2, hc2, _⟩
    · exact Or.inl ⟨ha, hb2, hc2⟩
    · exact Or.inr ⟨ha, hb2, hc2⟩

/-- The pusher state after one non-blocking enqueue, for the C9
witness. -/
def pusherOneEnqueued : PusherState :=
  { pending := ["m2"]
  , blocked := none
  , warned := 0
  , queue := ["m1"]
  , closedCh := false
  , delivered := []
  , senderExited := false
  , shutdownCalled := false
  , shutdownReturned := false }

/-- C9 witness: the order invariant after a concrete non-blocking enqueue
of the first of two messages into a capacity-1 buffer. -/
theorem C9_pusher_queue_witness :
    pusherOneEnqueued.delivered ++ pusherOneEnqueued.queue ++
      pusherOneEnqueued.blocked.toList ++ pusherOneEnqueued.pending =
      ["m1", "m2"] :=
  (C9_pusher_queue ["m1", "m2"] 1 pusherOneEnqueued
    (Relation.ReflTransGen.tail Relation.ReflTransGen.refl
      (PusherStep.enqueueFast (initPusher ["m1", "m2"]) "m1" ["m2"]
        rfl rfl rfl (by decide)))).1

/-- C10: the local runner terminates the process with exit status 0 when
the check body returned an error and with exit status 1 when it returned
none — inverted relative to the success=0 convention. -/
theorem C10_inverted_exit_codes (err : Option GoError) :
    (err ≠ none → runAndServeExitCode err = 0) ∧
    (err = none → runAndServeExitCode err = 1) := by
  cases err <;> simp [runAndServeExitCode]

/-- C10 witness: the exit codes at a concrete failure and at success. -/
theorem C10_inverted_exit_codes_witness :
    runAndServeExitCode (some (GoError.other "check failed")) = 0 ∧
    runAndServeExitCode none = 1 :=
  ⟨(C10_inverted_exit_codes (some (GoError.other "check failed"))).1
      (by simp),
   (C10_inverted_exit_codes none).2 rfl⟩

end VulcanSDK
